import Mathlib

/-!
# Verification of the scrypt password-hashing record engine

Shallow embedding of the `node-scrypt-pwd` sources: the option resolver
(`normalize` / `getOptions` / `opts`), the record codec (`parse`) and the
hash engine (`hash` / `verify`) of `src/index.js`, together with the
PHC-format variant (`parse` / `needsRehash` / `verify`) of the second
source file.  The key-derivation primitive `crypto.scrypt` and the PHC
deserializer `@phc/format` are external collaborators and are modelled as
abstract function parameters.  Byte strings are `List Nat` (each entry
`< 256`), record texts are `List Char`.
-/

namespace ScryptPwd

/-! ## JavaScript primitive models -/

/-- One character of the standard base64 alphabet, for a sextet `s < 64`
(`A`–`Z`, `a`–`z`, `0`–`9`, `+`, `/`), as produced by
`Buffer.prototype.toString('base64')`. -/
def sextetToChar (s : Nat) : Char :=
  if s < 26 then Char.ofNat (s + 65)
  else if s < 52 then Char.ofNat (s + 71)
  else if s < 62 then Char.ofNat (s - 4)
  else if s = 62 then '+' else '/'

/-- Inverse alphabet lookup: the sextet value of a base64 character,
`none` for characters outside the alphabet. -/
def charToSextet (c : Char) : Option Nat :=
  if 'A' ≤ c ∧ c ≤ 'Z' then some (c.toNat - 65)
  else if 'a' ≤ c ∧ c ≤ 'z' then some (c.toNat - 71)
  else if '0' ≤ c ∧ c ≤ '9' then some (c.toNat + 4)
  else if c = '+' then some 62
  else if c = '/' then some 63
  else none

/-- Standard base64 encoding of a byte string, with `=` padding, as
produced by `Buffer.prototype.toString('base64')` in Node. -/
def base64EncodeChars : List Nat → List Char
  | [] => []
  | [a] => [sextetToChar (a / 4), sextetToChar (a % 4 * 16), '=', '=']
  | [a, b] => [sextetToChar (a / 4), sextetToChar (a % 4 * 16 + b / 16),
               sextetToChar (b % 16 * 4), '=']
  | a :: b :: c :: rest =>
      sextetToChar (a / 4) :: sextetToChar (a % 4 * 16 + b / 16) ::
      sextetToChar (b % 16 * 4 + c / 64) :: sextetToChar (c % 64) ::
      base64EncodeChars rest

/-- Regroup a list of sextet values into bytes, dropping a trailing
group of fewer than 8 bits. -/
def sextetsToBytes : List Nat → List Nat
  | [s1, s2] => [s1 * 4 + s2 / 16]
  | [s1, s2, s3] => [s1 * 4 + s2 / 16, s2 % 16 * 16 + s3 / 4]
  | s1 :: s2 :: s3 :: s4 :: rest =>
      (s1 * 4 + s2 / 16) :: (s2 % 16 * 16 + s3 / 4) :: (s3 % 4 * 64 + s4) ::
      sextetsToBytes rest
  | _ => []

/-- `Buffer.from(text, 'base64')` in Node: a *forgiving* decoder.  It
never throws: characters outside the base64 alphabet are silently
ignored, decoding stops at the first `=` padding character, and any
trailing group of fewer than 8 bits is dropped. -/
def base64Decode (cs : List Char) : List Nat :=
  sextetsToBytes ((cs.takeWhile (· ≠ '=')).filterMap charToSextet)

/-- The whitespace characters skipped by JavaScript `parseInt`. -/
def isJsWhitespace (c : Char) : Bool :=
  c == ' ' || c == '\t' || c == '\n' || c == '\r' || c == '\x0b' || c == '\x0c'

/-- Value of a list of decimal digit characters, most significant first. -/
def decValue (ds : List Char) : Nat :=
  ds.foldl (fun a c => 10 * a + (c.toNat - 48)) 0

/-- Longest leading run of decimal digits, `none` when there is none
(JavaScript `NaN`). -/
def parseDecDigits (cs : List Char) : Option Nat :=
  match cs.takeWhile Char.isDigit with
  | [] => none
  | d :: ds => some (decValue (d :: ds))

/-- Hexadecimal digit test used by `parseInt` after an `0x` prefix. -/
def isHexDigitJs (c : Char) : Bool :=
  c.isDigit || ('a' ≤ c && c ≤ 'f') || ('A' ≤ c && c ≤ 'F')

/-- Value of one hexadecimal digit character. -/
def hexDigitValue (c : Char) : Nat :=
  if c.toNat ≤ 57 then c.toNat - 48
  else if c.toNat ≤ 70 then c.toNat - 55
  else c.toNat - 87

/-- Longest leading run of hexadecimal digits, `none` when there is none. -/
def parseHexDigits (cs : List Char) : Option Nat :=
  match cs.takeWhile isHexDigitJs with
  | [] => none
  | d :: ds => some ((d :: ds).foldl (fun a c => 16 * a + hexDigitValue c) 0)

/-- Magnitude part of JavaScript `parseInt(s)` with no radix argument:
an `0x`/`0X` prefix selects hexadecimal, otherwise the longest leading
run of decimal digits is taken and trailing characters are ignored. -/
def parseIntMagnitude : List Char → Option Nat
  | c0 :: c1 :: rest =>
      if c0 = '0' ∧ (c1 = 'x' ∨ c1 = 'X') then parseHexDigits rest
      else parseDecDigits (c0 :: c1 :: rest)
  | [] => parseDecDigits []
  | [c] => parseDecDigits [c]

/-- JavaScript `parseInt(s)` (radix unspecified): skip leading
whitespace, read an optional sign, then the magnitude; `none` models
`NaN`. -/
def parseIntJS (cs : List Char) : Option Int :=
  match cs.dropWhile isJsWhitespace with
  | [] => none
  | c :: rest =>
      if c = '-' then (parseIntMagnitude rest).map (fun n => -(n : Int))
      else if c = '+' then (parseIntMagnitude rest).map (fun n => (n : Int))
      else (parseIntMagnitude (c :: rest)).map (fun n => (n : Int))

/-- Decimal rendering of a natural number, as JavaScript template
interpolation produces for the integer parameters of a record. -/
def natToChars (n : Nat) : List Char :=
  if h : n < 10 then [Char.ofNat (48 + n)]
  else natToChars (n / 10) ++ [Char.ofNat (48 + n % 10)]
decreasing_by exact Nat.div_lt_self (by omega) (by omega)

/-- JavaScript `text.split('$')`: fields between `$` delimiters, empty
fields preserved. -/
def splitDollar : List Char → List (List Char)
  | [] => [[]]
  | a :: rest =>
      if a = '$' then [] :: splitDollar rest
      else
        match splitDollar rest with
        | [] => [[a]]
        | f :: fs => (a :: f) :: fs

/-! ## Option Resolver (`src/index.js`) -/

/-- A fully resolved option set (`defaultOptions` / `currentOptions` /
`combinedOptions` in the source): every field carries a definite value. -/
structure ResolvedOptions where
  hashlength : Nat
  saltlength : Nat
  pepper : String
  cost : Nat
  blockSize : Nat
  parallelization : Nat
  maxmem : Nat
  permissive : Bool
deriving DecidableEq

/-- `defaultOptions` of `src/index.js`. -/
def defaultOptions : ResolvedOptions :=
  { hashlength := 32
    saltlength := 16
    pepper := ""
    cost := 16384
    blockSize := 8
    parallelization := 1
    maxmem := 64 * 1024 * 1024
    permissive := false }

/-- A caller-supplied options object.  Each field is a JavaScript
property slot: `none` = key absent, `some none` = key present with value
`undefined`, `some (some v)` = key present with value `v`.  `N`, `r` and
`p` are the shorthand aliases of `cost`, `blockSize` and
`parallelization`. -/
structure Overrides where
  hashlength : Option (Option Nat) := none
  saltlength : Option (Option Nat) := none
  pepper : Option (Option String) := none
  cost : Option (Option Nat) := none
  blockSize : Option (Option Nat) := none
  parallelization : Option (Option Nat) := none
  maxmem : Option (Option Nat) := none
  permissive : Option (Option Bool) := none
  N : Option (Option Nat) := none
  r : Option (Option Nat) := none
  p : Option (Option Nat) := none
deriving DecidableEq

/-- Output of `normalize`: alias keys are gone and no recognized key is
left with value `undefined`, so each field is either absent (`none`) or
a definite value (`some v`). -/
structure NormalizedOptions where
  hashlength : Option Nat
  saltlength : Option Nat
  pepper : Option String
  cost : Option Nat
  blockSize : Option Nat
  parallelization : Option Nat
  maxmem : Option Nat
  permissive : Option Bool
deriving DecidableEq

/-- First loop of `normalize`: if the shorthand alias key is present
(`shorthand[opt] in opts`) its slot — even `undefined` — replaces the
canonical key's slot and the alias key is deleted. -/
def aliasResolve (direct alia : Option (Option Nat)) : Option (Option Nat) :=
  match alia with
  | some av => some av
  | none => direct

/-- Second loop of `normalize`: a key present with value `undefined` is
replaced by its `defaultOptions` value; an absent key stays absent. -/
def definedOr {α : Type} (dflt : α) (slot : Option (Option α)) : Option α :=
  slot.map (fun v => v.getD dflt)

/-- `normalize(options)` of `src/index.js`: resolve the `N`/`r`/`p`
aliases onto the canonical keys, then replace every present-but-
`undefined` recognized key by its default value. -/
def normalize (o : Overrides) : NormalizedOptions :=
  { hashlength := definedOr defaultOptions.hashlength o.hashlength
    saltlength := definedOr defaultOptions.saltlength o.saltlength
    pepper := definedOr defaultOptions.pepper o.pepper
    cost := definedOr defaultOptions.cost (aliasResolve o.cost o.N)
    blockSize := definedOr defaultOptions.blockSize (aliasResolve o.blockSize o.r)
    parallelization :=
      definedOr defaultOptions.parallelization (aliasResolve o.parallelization o.p)
    maxmem := definedOr defaultOptions.maxmem o.maxmem
    permissive := definedOr defaultOptions.permissive o.permissive }

/-- `getOptions(options)` of `src/index.js`:
`{ ...currentOptions, ...normalize(options) }` — each key present in the
normalized overrides overwrites the process-wide current value. -/
def getOptions (cur : ResolvedOptions) (o : Overrides) : ResolvedOptions :=
  { hashlength := (normalize o).hashlength.getD cur.hashlength
    saltlength := (normalize o).saltlength.getD cur.saltlength
    pepper := (normalize o).pepper.getD cur.pepper
    cost := (normalize o).cost.getD cur.cost
    blockSize := (normalize o).blockSize.getD cur.blockSize
    parallelization := (normalize o).parallelization.getD cur.parallelization
    maxmem := (normalize o).maxmem.getD cur.maxmem
    permissive := (normalize o).permissive.getD cur.permissive }

/-- `opts(options)` with a non-empty argument: the process-wide state is
durably replaced by the merge result. -/
def optsUpdate (cur : ResolvedOptions) (o : Overrides) : ResolvedOptions :=
  getOptions cur o

/-! ## Record Codec (`parse` in `src/index.js`) -/

/-- Which numeric field a parameter error names. -/
inductive ParamName
  | cost
  | blockSize
  | parallelization
deriving DecidableEq

/-- The errors `parse` can throw.  `invalidBase64` mirrors the
`Invalid base64 encoding for ...` throw in the source's catch block;
since `Buffer.from(・, 'base64')` never throws, the embedding (like the
source) can never produce it. -/
inductive ParseError
  | invalidFormat
  | invalidBase64 (param : ParamName)
  | invalidParameter (param : ParamName)
  | hashLengthMismatch
  | saltLengthMismatch
  | parameterMismatch (param : ParamName)
deriving DecidableEq

/-- Is the error one of the strict-mode policy-mismatch throws
(`Hash length does not match`, `Salt length does not match`,
`Parameter ... does not match`)? -/
def ParseError.isMismatch : ParseError → Bool
  | .hashLengthMismatch => true
  | .saltLengthMismatch => true
  | .parameterMismatch _ => true
  | _ => false

/-- The object `parse` returns: decoded key and salt buffers plus the
three numeric parameters (results of `parseInt`, checked `> 0`). -/
structure ParsedHash where
  hashedPassword : List Nat
  salt : List Nat
  cost : Int
  blockSize : Int
  parallelization : Int
deriving DecidableEq

/-- `parsedHash[param] = parseInt(parts[i]); if (!(parsedHash[param] > 0)) throw`:
`NaN` and non-positive values are rejected, naming the field. -/
def checkPosInt (name : ParamName) (v : Option Int) : Except ParseError Int :=
  match v with
  | some n => if 0 < n then .ok n else .error (.invalidParameter name)
  | none => .error (.invalidParameter name)

/-- Policy-independent part of `parse`: split on `$` into exactly five
fields, base64-decode the first two (never fails) and `parseInt` the
last three with positivity checks, in source order. -/
def parseRaw (hash : List Char) : Except ParseError ParsedHash :=
  match splitDollar hash with
  | [f0, f1, f2, f3, f4] =>
      let hashedPassword := base64Decode f0
      let salt := base64Decode f1
      match checkPosInt .cost (parseIntJS f2) with
      | .error e => .error e
      | .ok cost =>
          match checkPosInt .blockSize (parseIntJS f3) with
          | .error e => .error e
          | .ok blockSize =>
              match checkPosInt .parallelization (parseIntJS f4) with
              | .error e => .error e
              | .ok parallelization =>
                  .ok { hashedPassword, salt, cost, blockSize, parallelization }
  | _ => .error .invalidFormat

/-- The `if (!combinedOptions.permissive)` block of `parse`: with
`permissive` unset, key length, salt length and the three numeric
parameters must each equal the current option values, checked in source
order. -/
def checkPolicy (co : ResolvedOptions) (ph : ParsedHash) : Except ParseError ParsedHash :=
  if co.permissive then .ok ph
  else if ph.hashedPassword.length ≠ co.hashlength then .error .hashLengthMismatch
  else if ph.salt.length ≠ co.saltlength then .error .saltLengthMismatch
  else if ph.cost ≠ (co.cost : Int) then .error (.parameterMismatch .cost)
  else if ph.blockSize ≠ (co.blockSize : Int) then .error (.parameterMismatch .blockSize)
  else if ph.parallelization ≠ (co.parallelization : Int) then
    .error (.parameterMismatch .parallelization)
  else .ok ph

/-- `parse(hash, options)` for an already-resolved option set. -/
def parseWith (co : ResolvedOptions) (hash : List Char) : Except ParseError ParsedHash :=
  (parseRaw hash).bind (checkPolicy co)

/-- `parse(hash, options)` of `src/index.js`: resolve the options
against the process-wide state, then decode and validate. -/
def parse (cur : ResolvedOptions) (options : Overrides) (hash : List Char) :
    Except ParseError ParsedHash :=
  parseWith (getOptions cur options) hash

/-- `looksGood(hash, options)`: `parse` succeeded. -/
def looksGood (cur : ResolvedOptions) (options : Overrides) (hash : List Char) : Bool :=
  match parse cur options hash with
  | .ok _ => true
  | .error _ => false

/-! ## Hash Engine (`hash` / `verify` in `src/index.js`) -/

/-- The argument tuple of one `crypto.scrypt` invocation. -/
structure ScryptCall where
  password : String
  salt : List Nat
  keylen : Nat
  cost : Int
  blockSize : Int
  parallelization : Int
  maxmem : Nat
deriving DecidableEq

/-- The key-derivation primitive, an external collaborator: it either
fails (callback `err`) or returns a derived key. -/
abbrev ScryptFn := ScryptCall → Except Unit (List Nat)

/-- The `crypto.scrypt` call made by `hash`: password plus pepper, the
fresh salt, and the resolved option values. -/
def hashScryptArgs (password : String) (co : ResolvedOptions) (salt : List Nat) :
    ScryptCall :=
  { password := password ++ co.pepper
    salt := salt
    keylen := co.hashlength
    cost := (co.cost : Int)
    blockSize := (co.blockSize : Int)
    parallelization := (co.parallelization : Int)
    maxmem := co.maxmem }

/-- `hash(password, options)` of `src/index.js`.  The random salt
(`crypto.randomBytes(saltlength)`) is passed in explicitly; a scrypt
failure rejects the returned promise.  On success the record is
`base64(key)$base64(salt)$cost$blockSize$parallelization`. -/
def hash (S : ScryptFn) (password : String) (cur : ResolvedOptions)
    (options : Overrides) (salt : List Nat) : Except Unit (List Char) :=
  let combinedOptions := getOptions cur options
  match S (hashScryptArgs password combinedOptions salt) with
  | .error e => .error e
  | .ok derivedKey =>
      .ok (base64EncodeChars derivedKey ++
        ('$' :: (base64EncodeChars salt ++
          ('$' :: (natToChars combinedOptions.cost ++
            ('$' :: (natToChars combinedOptions.blockSize ++
              ('$' :: natToChars combinedOptions.parallelization))))))))

/-- The `crypto.scrypt` call made by `verify`: password plus the
*policy* pepper, but the *record's* salt, key length and work-factor
parameters; only `maxmem` comes from the current options. -/
def verifyScryptArgs (password : String) (ph : ParsedHash) (co : ResolvedOptions) :
    ScryptCall :=
  { password := password ++ co.pepper
    salt := ph.salt
    keylen := ph.hashedPassword.length
    cost := ph.cost
    blockSize := ph.blockSize
    parallelization := ph.parallelization
    maxmem := co.maxmem }

/-- `verify(password, hash, options)` of `src/index.js`.  A `parse`
throw is caught and collapsed to `false`; a scrypt failure calls
`reject(err)`, so the returned promise *rejects* (modelled as
`.error`); otherwise the result is `derivedKey.equals(hashedPassword)`. -/
def verify (S : ScryptFn) (password : String) (rec : List Char)
    (cur : ResolvedOptions) (options : Overrides) : Except Unit Bool :=
  let combinedOptions := getOptions cur options
  match parseWith combinedOptions rec with
  | .error _ => .ok false
  | .ok parsedHash =>
      match S (verifyScryptArgs password parsedHash combinedOptions) with
      | .error e => .error e
      | .ok derivedKey => .ok (derivedKey == parsedHash.hashedPassword)

/-! ## PHC-format variant (second source file): `strict` flag,
`needsRehash`, records serialized/deserialized through `@phc/format`. -/

namespace Phc

/-- Resolved options of the PHC variant: same fields, with the policy
flag named `strict` (default `false`). -/
structure ResolvedS where
  hashlength : Nat
  saltlength : Nat
  pepper : String
  cost : Nat
  blockSize : Nat
  parallelization : Nat
  maxmem : Nat
  strict : Bool
deriving DecidableEq

/-- `defaultOptions` of the PHC variant. -/
def defaultOptionsS : ResolvedS :=
  { hashlength := 32
    saltlength := 16
    pepper := ""
    cost := 16384
    blockSize := 8
    parallelization := 1
    maxmem := 64 * 1024 * 1024
    strict := false }

/-- Caller options object of the PHC variant (property slots as in
`ScryptPwd.Overrides`, with `strict` in place of `permissive`). -/
structure OverridesS where
  hashlength : Option (Option Nat) := none
  saltlength : Option (Option Nat) := none
  pepper : Option (Option String) := none
  cost : Option (Option Nat) := none
  blockSize : Option (Option Nat) := none
  parallelization : Option (Option Nat) := none
  maxmem : Option (Option Nat) := none
  strict : Option (Option Bool) := none
  N : Option (Option Nat) := none
  r : Option (Option Nat) := none
  p : Option (Option Nat) := none
deriving DecidableEq

/-- `normalize` then spread over the current options, exactly as in the
first variant (`{ ...currentOptions, ...normalize(options) }`). -/
def getOptionsS (cur : ResolvedS) (o : OverridesS) : ResolvedS :=
  { hashlength := (definedOr defaultOptionsS.hashlength o.hashlength).getD cur.hashlength
    saltlength := (definedOr defaultOptionsS.saltlength o.saltlength).getD cur.saltlength
    pepper := (definedOr defaultOptionsS.pepper o.pepper).getD cur.pepper
    cost := (definedOr defaultOptionsS.cost (aliasResolve o.cost o.N)).getD cur.cost
    blockSize :=
      (definedOr defaultOptionsS.blockSize (aliasResolve o.blockSize o.r)).getD cur.blockSize
    parallelization :=
      (definedOr defaultOptionsS.parallelization
        (aliasResolve o.parallelization o.p)).getD cur.parallelization
    maxmem := (definedOr defaultOptionsS.maxmem o.maxmem).getD cur.maxmem
    strict := (definedOr defaultOptionsS.strict o.strict).getD cur.strict }

/-- The object `phc.deserialize` yields (after the source copies
`params.n` into `params.N`): hash and salt buffers and the `n`, `r`,
`p` parameters, each possibly absent from the params string. -/
structure PhcRec where
  hash : List Nat
  salt : List Nat
  n : Option Int
  r : Option Int
  p : Option Int
deriving DecidableEq

/-- The errors the PHC-variant `parse` can throw. -/
inductive PhcParseError
  | deserializeFailed
  | hashLengthMismatch
  | saltLengthMismatch
  | paramMismatch (param : ParamName)
deriving DecidableEq

/-- `@phc/format`'s `deserialize`, an external collaborator: `none`
models a throw on a malformed PHC string. -/
abbrev Deserialize := String → Option PhcRec

/-- `parse(hash, options)` of the PHC variant: deserialize, then — only
when `strict` is set — require hash length, salt length and the `n`,
`r`, `p` parameters to equal the current option values, in source
order. -/
def parseS (D : Deserialize) (cur : ResolvedS) (options : OverridesS) (hash : String) :
    Except PhcParseError PhcRec :=
  let combinedOptions := getOptionsS cur options
  match D hash with
  | none => .error .deserializeFailed
  | some parsedHash =>
      if combinedOptions.strict then
        if parsedHash.hash.length ≠ combinedOptions.hashlength then
          .error .hashLengthMismatch
        else if parsedHash.salt.length ≠ combinedOptions.saltlength then
          .error .saltLengthMismatch
        else if parsedHash.n ≠ some (combinedOptions.cost : Int) then
          .error (.paramMismatch .cost)
        else if parsedHash.r ≠ some (combinedOptions.blockSize : Int) then
          .error (.paramMismatch .blockSize)
        else if parsedHash.p ≠ some (combinedOptions.parallelization : Int) then
          .error (.paramMismatch .parallelization)
        else .ok parsedHash
      else .ok parsedHash

/-- `needsRehash(hash, options)`: parse under
`{ ...options, strict: true }` — the `strict` key is spread in with
value `true` on top of the caller's options — and report `true` exactly
when that parse throws. -/
def needsRehash (D : Deserialize) (cur : ResolvedS) (options : OverridesS)
    (hash : String) : Bool :=
  match parseS D cur { options with strict := some (some true) } hash with
  | .ok _ => false
  | .error _ => true

end Phc

/-! ## Supporting lemmas: base64 -/

/-- Alphabet inverse: encoding a sextet and looking it back up is the
identity, and the produced character is neither padding nor the record
delimiter. -/
theorem charToSextet_sextetToChar : ∀ s : Fin 64,
    charToSextet (sextetToChar s.1) = some s.1 ∧
      sextetToChar s.1 ≠ '=' ∧ sextetToChar s.1 ≠ '$' := by decide

theorem sextet_inv {s : Nat} (h : s < 64) :
    charToSextet (sextetToChar s) = some s ∧
      sextetToChar s ≠ '=' ∧ sextetToChar s ≠ '$' :=
  charToSextet_sextetToChar ⟨s, h⟩

/-- Node's forgiving base64 decoder inverts the standard encoder on any
byte string. -/
theorem base64_roundtrip (bs : List Nat) (h : ∀ b ∈ bs, b < 256) :
    base64Decode (base64EncodeChars bs) = bs := by
  induction bs using base64EncodeChars.induct with
  | case1 => rfl
  | case2 a =>
      have ha : a < 256 := h a (by simp)
      obtain ⟨hv1, hne1, -⟩ := sextet_inv (show a / 4 < 64 by omega)
      obtain ⟨hv2, hne2, -⟩ := sextet_inv (show a % 4 * 16 < 64 by omega)
      simp [base64EncodeChars, base64Decode, List.takeWhile_cons, hne1, hne2,
        List.filterMap_cons, hv1, hv2, sextetsToBytes]
      omega
  | case3 a b =>
      have ha : a < 256 := h a (by simp)
      have hb : b < 256 := h b (by simp)
      obtain ⟨hv1, hne1, -⟩ := sextet_inv (show a / 4 < 64 by omega)
      obtain ⟨hv2, hne2, -⟩ := sextet_inv (show a % 4 * 16 + b / 16 < 64 by omega)
      obtain ⟨hv3, hne3, -⟩ := sextet_inv (show b % 16 * 4 < 64 by omega)
      simp [base64EncodeChars, base64Decode, List.takeWhile_cons, hne1, hne2, hne3,
        List.filterMap_cons, hv1, hv2, hv3, sextetsToBytes]
      omega
  | case4 a b c rest ih =>
      have ha : a < 256 := h a (by simp)
      have hb : b < 256 := h b (by simp)
      have hc : c < 256 := h c (by simp)
      have hrest : ∀ x ∈ rest, x < 256 := fun x hx => h x (by simp [hx])
      obtain ⟨hv1, hne1, -⟩ := sextet_inv (show a / 4 < 64 by omega)
      obtain ⟨hv2, hne2, -⟩ := sextet_inv (show a % 4 * 16 + b / 16 < 64 by omega)
      obtain ⟨hv3, hne3, -⟩ := sextet_inv (show b % 16 * 4 + c / 64 < 64 by omega)
      obtain ⟨hv4, hne4, -⟩ := sextet_inv (show c % 64 < 64 by omega)
      simp [base64EncodeChars, base64Decode, List.takeWhile_cons, hne1, hne2, hne3, hne4,
        List.filterMap_cons, hv1, hv2, hv3, hv4, sextetsToBytes]
      refine ⟨by omega, by omega, by omega, ?_⟩
      simpa [base64Decode] using ih hrest

/-- Every character the base64 encoder produces differs from the record
delimiter `$`. -/
theorem base64_no_dollar (bs : List Nat) (h : ∀ b ∈ bs, b < 256) :
    '$' ∉ base64EncodeChars bs := by
  induction bs using base64EncodeChars.induct with
  | case1 => simp [base64EncodeChars]
  | case2 a =>
      have ha : a < 256 := h a (by simp)
      obtain ⟨-, -, hd1⟩ := sextet_inv (show a / 4 < 64 by omega)
      obtain ⟨-, -, hd2⟩ := sextet_inv (show a % 4 * 16 < 64 by omega)
      simp [base64EncodeChars]
      exact ⟨fun e => hd1 e.symm, fun e => hd2 e.symm⟩
  | case3 a b =>
      have ha : a < 256 := h a (by simp)
      have hb : b < 256 := h b (by simp)
      obtain ⟨-, -, hd1⟩ := sextet_inv (show a / 4 < 64 by omega)
      obtain ⟨-, -, hd2⟩ := sextet_inv (show a % 4 * 16 + b / 16 < 64 by omega)
      obtain ⟨-, -, hd3⟩ := sextet_inv (show b % 16 * 4 < 64 by omega)
      simp [base64EncodeChars]
      exact ⟨fun e => hd1 e.symm, fun e => hd2 e.symm, fun e => hd3 e.symm⟩
  | case4 a b c rest ih =>
      have ha : a < 256 := h a (by simp)
      have hb : b < 256 := h b (by simp)
      have hc : c < 256 := h c (by simp)
      have hrest : ∀ x ∈ rest, x < 256 := fun x hx => h x (by simp [hx])
      obtain ⟨-, -, hd1⟩ := sextet_inv (show a / 4 < 64 by omega)
      obtain ⟨-, -, hd2⟩ := sextet_inv (show a % 4 * 16 + b / 16 < 64 by omega)
      obtain ⟨-, -, hd3⟩ := sextet_inv (show b % 16 * 4 + c / 64 < 64 by omega)
      obtain ⟨-, -, hd4⟩ := sextet_inv (show c % 64 < 64 by omega)
      simp [base64EncodeChars]
      exact ⟨fun e => hd1 e.symm, fun e => hd2 e.symm, fun e => hd3 e.symm,
        fun e => hd4 e.symm, ih hrest⟩

/-! ## Supporting lemmas: splitting and integer parsing -/

theorem splitDollar_no_dollar {xs : List Char} (h : '$' ∉ xs) :
    splitDollar xs = [xs] := by
  induction xs with
  | nil => rfl
  | cons a rest ih =>
      simp only [List.mem_cons, not_or] at h
      rw [splitDollar, if_neg (fun e => h.1 e.symm), ih h.2]

theorem splitDollar_append (xs ys : List Char) (h : '$' ∉ xs) :
    splitDollar (xs ++ '$' :: ys) = xs :: splitDollar ys := by
  induction xs with
  | nil =>
      show splitDollar ('$' :: ys) = [] :: splitDollar ys
      rw [splitDollar, if_pos rfl]
  | cons a rest ih =>
      simp only [List.mem_cons, not_or] at h
      show splitDollar (a :: (rest ++ '$' :: ys)) = _
      rw [splitDollar, if_neg (fun e => h.1 e.symm), ih h.2]

/-- Every character of the decimal rendering is a digit. -/
theorem natToChars_digits (n : Nat) : ∀ c ∈ natToChars n, c.isDigit = true := by
  induction n using natToChars.induct with
  | case1 n hn =>
      intro c hc
      rw [natToChars, dif_pos hn] at hc
      simp only [List.mem_singleton] at hc
      subst hc
      interval_cases n <;> decide
  | case2 n hn ih =>
      intro c hc
      rw [natToChars, dif_neg hn] at hc
      rcases List.mem_append.1 hc with hm | hm
      · exact ih c hm
      · simp only [List.mem_singleton] at hm
        subst hm
        have h10 : n % 10 < 10 := Nat.mod_lt _ (by omega)
        generalize n % 10 = m at h10 ⊢
        interval_cases m <;> decide

theorem natToChars_ne_nil (n : Nat) : natToChars n ≠ [] := by
  rw [natToChars]
  split <;> simp

theorem natToChars_no_dollar (n : Nat) : '$' ∉ natToChars n := fun hm =>
  absurd (natToChars_digits n '$' hm) (by decide)

theorem toNat_ofNat_digit {m : Nat} (h : m < 10) :
    (Char.ofNat (48 + m)).toNat = 48 + m := by
  interval_cases m <;> decide

theorem decValue_append_digit (xs : List Char) (d : Char) :
    decValue (xs ++ [d]) = 10 * decValue xs + (d.toNat - 48) := by
  simp [decValue, List.foldl_append]

/-- Evaluating the digits of the decimal rendering recovers the number. -/
theorem decValue_natToChars (n : Nat) : decValue (natToChars n) = n := by
  induction n using natToChars.induct with
  | case1 n hn =>
      rw [natToChars, dif_pos hn]
      simp [decValue, toNat_ofNat_digit hn]
  | case2 n hn ih =>
      rw [natToChars, dif_neg hn, decValue_append_digit, ih,
        toNat_ofNat_digit (Nat.mod_lt _ (by omega))]
      omega

/-- A digit character is not `parseInt` whitespace. -/
theorem isJsWhitespace_digit {c : Char} (h : c.isDigit = true) :
    isJsWhitespace c = false := by
  simp only [isJsWhitespace, Bool.or_eq_false_iff, beq_eq_false_iff_ne]
  refine ⟨⟨⟨⟨⟨?_, ?_⟩, ?_⟩, ?_⟩, ?_⟩, ?_⟩ <;> (rintro rfl; exact absurd h (by decide))

theorem digit_ne {c : Char} (h : c.isDigit = true) :
    c ≠ '-' ∧ c ≠ '+' ∧ c ≠ 'x' ∧ c ≠ 'X' := by
  refine ⟨?_, ?_, ?_, ?_⟩ <;> (rintro rfl; exact absurd h (by decide))

theorem takeWhile_digits {cs : List Char} (h : ∀ c ∈ cs, c.isDigit = true) :
    cs.takeWhile Char.isDigit = cs := by
  induction cs with
  | nil => rfl
  | cons a rest ih =>
      rw [List.takeWhile_cons, if_pos (h a (by simp)),
        ih (fun c hc => h c (by simp [hc]))]

theorem parseDecDigits_natToChars (n : Nat) :
    parseDecDigits (natToChars n) = some n := by
  rw [parseDecDigits, takeWhile_digits (natToChars_digits n)]
  cases hcs : natToChars n with
  | nil => exact absurd hcs (natToChars_ne_nil n)
  | cons d ds =>
      simp only []
      rw [← hcs, decValue_natToChars]

/-- On a pure run of digits the `0x` prefix branch cannot fire. -/
theorem parseIntMagnitude_digits {cs : List Char} (h : ∀ c ∈ cs, c.isDigit = true) :
    parseIntMagnitude cs = parseDecDigits cs := by
  match cs with
  | [] => rfl
  | [c] => rfl
  | c0 :: c1 :: rest =>
      rw [parseIntMagnitude, if_neg]
      rintro ⟨rfl, hx⟩
      have h1 := h c1 (by simp)
      rcases hx with rfl | rfl <;> exact absurd h1 (by decide)

/-- JavaScript `parseInt` inverts the decimal rendering of a natural
number. -/
theorem parseIntJS_natToChars (n : Nat) : parseIntJS (natToChars n) = some (n : Int) := by
  obtain ⟨d, ds, hcs⟩ : ∃ d ds, natToChars n = d :: ds := by
    cases hcs : natToChars n with
    | nil => exact absurd hcs (natToChars_ne_nil n)
    | cons d ds => exact ⟨d, ds, rfl⟩
  have hd : d.isDigit = true := natToChars_digits n d (by rw [hcs]; simp)
  obtain ⟨hm, hp, -, -⟩ := digit_ne hd
  rw [parseIntJS, hcs, List.dropWhile_cons, isJsWhitespace_digit hd]
  simp only [Bool.false_eq_true, if_false]
  rw [if_neg hm, if_neg hp, ← hcs,
    parseIntMagnitude_digits (natToChars_digits n), parseDecDigits_natToChars]
  rfl

/-! ## Supporting lemmas: parse structure -/

theorem getOptions_empty (cur : ResolvedOptions) : getOptions cur {} = cur := rfl

theorem checkPolicy_permissive {co : ResolvedOptions} (h : co.permissive = true)
    (ph : ParsedHash) : checkPolicy co ph = .ok ph := by
  rw [checkPolicy, if_pos h]

/-- The policy block returns the parsed object unchanged when it does
not throw. -/
theorem checkPolicy_ok_eq {co : ResolvedOptions} {ph ph' : ParsedHash}
    (h : checkPolicy co ph = .ok ph') : ph' = ph := by
  rw [checkPolicy] at h
  split at h
  · exact (Except.ok.injEq _ _ ▸ h).symm ▸ rfl
  · split at h
    · exact absurd h (by simp)
    · split at h
      · exact absurd h (by simp)
      · split at h
        · exact absurd h (by simp)
        · split at h
          · exact absurd h (by simp)
          · split at h
            · exact absurd h (by simp)
            · simpa using h.symm

/-- Any error the policy block throws is one of the three mismatch
throws. -/
theorem checkPolicy_error_isMismatch {co : ResolvedOptions} {ph : ParsedHash}
    {e : ParseError} (h : checkPolicy co ph = .error e) : e.isMismatch = true := by
  rw [checkPolicy] at h
  split at h
  · exact absurd h (by simp)
  · split at h
    · injection h with h; exact h ▸ rfl
    · split at h
      · injection h with h; exact h ▸ rfl
      · split at h
        · injection h with h; exact h ▸ rfl
        · split at h
          · injection h with h; exact h ▸ rfl
          · split at h
            · injection h with h; exact h ▸ rfl
            · exact absurd h (by simp)

/-- A successful `parse` pins down the policy-independent decode. -/
theorem parseWith_ok_parseRaw {co : ResolvedOptions} {t : List Char} {r : ParsedHash}
    (h : parseWith co t = .ok r) : parseRaw t = .ok r := by
  rw [parseWith] at h
  cases hr : parseRaw t with
  | error e => rw [hr] at h; exact absurd h (by simp [Except.bind])
  | ok ph =>
      rw [hr] at h
      simp only [Except.bind] at h
      rw [checkPolicy_ok_eq h]

/-! ## Shared example inputs -/

/-- `"AAAA$AAAA$16384$8$1"`: a record with a 3-byte key, 3-byte salt and
the default parameters. -/
def recEx : List Char :=
  ['A', 'A', 'A', 'A', '$', 'A', 'A', 'A', 'A', '$', '1', '6', '3', '8', '4', '$', '8', '$', '1']

/-- The parse result of `recEx`. -/
def phEx : ParsedHash :=
  { hashedPassword := [0, 0, 0], salt := [0, 0, 0]
    cost := 16384, blockSize := 8, parallelization := 1 }

/-! ## Claim C7 -/

/-- C7: the claim states that a 5-field record whose first two fields
are not valid base64 fails with a `MalformedRecord`-class error.  The
code cannot do this: Node's `Buffer.from(・, 'base64')` never throws, so
the `Invalid base64 encoding` catch block is unreachable, and the record
`"####$####$16384$8$1"` — whose key and salt fields consist only of
characters outside the base64 alphabet — parses successfully, the
invalid characters silently decoding to empty buffers. -/
theorem parse_accepts_invalid_base64 :
    parseWith { defaultOptions with permissive := true }
      ['#', '#', '#', '#', '$', '#', '#', '#', '#', '$', '1', '6', '3', '8', '4', '$', '8', '$', '1'] =
      .ok { hashedPassword := [], salt := [], cost := 16384, blockSize := 8,
            parallelization := 1 } := by
  rfl

/-! ## Claim C8 -/

/-- The test `parseInt(field) > 0` applied by `parse` to a numeric
field, as a boolean. -/
def posIntJS (f : List Char) : Bool :=
  match parseIntJS f with
  | some v => decide (0 < v)
  | none => false

/-- The policy block never throws an `InvalidParameter` error, so
`parse` reports one exactly when the decode stage does. -/
theorem parseWith_invalidParameter_iff (P : ResolvedOptions) (t : List Char) (x : ParamName) :
    parseWith P t = .error (.invalidParameter x) ↔
      parseRaw t = .error (.invalidParameter x) := by
  rw [parseWith]
  cases hr : parseRaw t with
  | error e => simp [Except.bind]
  | ok ph =>
      simp only [Except.bind]
      constructor
      · intro hc
        have := checkPolicy_error_isMismatch hc
        simp [ParseError.isMismatch] at this
      · intro hk
        exact absurd hk (by simp)

/-- C8 counterexample: the claim states a parameter field that is not a
pure decimal integer literal is rejected with `InvalidParameter`.  The
code uses `parseInt`, which ignores trailing characters: the record
`"AAAA$AAAA$16384$8$1x"`, whose parallelization field `"1x"` is not a
decimal integer literal, parses successfully with parallelization 1. -/
theorem parse_accepts_trailing_garbage :
    parseWith { defaultOptions with permissive := true }
      ['A', 'A', 'A', 'A', '$', 'A', 'A', 'A', 'A', '$', '1', '6', '3', '8', '4', '$', '8', '$', '1', 'x'] =
      .ok phEx := by
  rfl

/-- C8 (amended): on a 5-field input, `parse` fails with
`InvalidParameter` naming a field exactly when JavaScript-`parseInt` of
that field (leading whitespace and sign allowed, `0x` hexadecimal
prefix recognized, longest digit prefix taken, trailing characters
ignored) is `NaN` or not strictly positive, the fields being checked in
the order cost, blockSize, parallelization. -/
theorem parse_invalidParameter_iff_parseInt (P : ResolvedOptions)
    (t f0 f1 f2 f3 f4 : List Char) (ht : splitDollar t = [f0, f1, f2, f3, f4]) :
    (parseWith P t = .error (.invalidParameter .cost) ↔ posIntJS f2 = false)
  ∧ (parseWith P t = .error (.invalidParameter .blockSize) ↔
      posIntJS f2 = true ∧ posIntJS f3 = false)
  ∧ (parseWith P t = .error (.invalidParameter .parallelization) ↔
      posIntJS f2 = true ∧ posIntJS f3 = true ∧ posIntJS f4 = false) := by
  rw [parseWith_invalidParameter_iff, parseWith_invalidParameter_iff,
    parseWith_invalidParameter_iff, parseRaw, ht]
  simp only []
  rcases h2 : parseIntJS f2 with - | v2
  · simp [checkPosInt, Except.bind, posIntJS, h2]
  · rcases Int.lt_or_le 0 v2 with hv2 | hv2
    · rcases h3 : parseIntJS f3 with - | v3
      · simp [checkPosInt, Except.bind, posIntJS, h2, h3, hv2, if_pos hv2]
      · rcases Int.lt_or_le 0 v3 with hv3 | hv3
        · rcases h4 : parseIntJS f4 with - | v4
          · simp [checkPosInt, Except.bind, posIntJS, h2, h3, h4, hv2, hv3]
          · rcases Int.lt_or_le 0 v4 with hv4 | hv4
            · simp [checkPosInt, Except.bind, posIntJS, h2, h3, h4, hv2, hv3, hv4]
            · simp [checkPosInt, Except.bind, posIntJS, h2, h3, h4, hv2, hv3,
                if_neg (Int.not_lt.mpr hv4), Int.not_lt.mpr hv4]
        · simp [checkPosInt, Except.bind, posIntJS, h2, h3, hv2,
            if_neg (Int.not_lt.mpr hv3), Int.not_lt.mpr hv3]
    · simp [checkPosInt, Except.bind, posIntJS, h2,
        if_neg (Int.not_lt.mpr hv2), Int.not_lt.mpr hv2]

/-- C8 amended-claim witness: the record `"AAAA$AAAA$zz$8$1"` has a
non-numeric cost field and is rejected naming `cost`. -/
theorem parse_invalidParameter_iff_parseInt_witness :
    parseWith defaultOptions
      ['A', 'A', 'A', 'A', '$', 'A', 'A', 'A', 'A', '$', 'z', 'z', '$', '8', '$', '1'] =
      .error (.invalidParameter .cost) :=
  (parse_invalidParameter_iff_parseInt defaultOptions
    ['A', 'A', 'A', 'A', '$', 'A', 'A', 'A', 'A', '$', 'z', 'z', '$', '8', '$', '1']
    ['A', 'A', 'A', 'A'] ['A', 'A', 'A', 'A'] ['z', 'z'] ['8'] ['1'] rfl).1.mpr rfl

/-! ## Claim C10 -/

/-- C10: under a permissive policy `parse` imposes no minimum length on
the decoded key and salt: any record whose first two fields are empty
and whose parameter fields are positive integers is accepted, yielding
a zero-length derived key and zero-length salt. -/
theorem parse_accepts_empty_key_salt (P : ResolvedOptions) (hP : P.permissive = true)
    (c b p : Nat) (hc : 0 < c) (hb : 0 < b) (hp : 0 < p) :
    parseWith P
      ('$' :: '$' :: (natToChars c ++ ('$' :: (natToChars b ++ ('$' :: natToChars p))))) =
      .ok { hashedPassword := [], salt := [], cost := (c : Int), blockSize := (b : Int),
            parallelization := (p : Int) } := by
  have hsplit : splitDollar
      ('$' :: '$' :: (natToChars c ++ ('$' :: (natToChars b ++ ('$' :: natToChars p))))) =
      [[], [], natToChars c, natToChars b, natToChars p] := by
    rw [splitDollar, if_pos rfl, splitDollar, if_pos rfl,
      splitDollar_append _ _ (natToChars_no_dollar c),
      splitDollar_append _ _ (natToChars_no_dollar b),
      splitDollar_no_dollar (natToChars_no_dollar p)]
  rw [parseWith, parseRaw, hsplit]
  simp only [parseIntJS_natToChars, checkPosInt,
    if_pos (Int.natCast_pos.mpr hc), if_pos (Int.natCast_pos.mpr hb),
    if_pos (Int.natCast_pos.mpr hp), Except.bind]
  exact checkPolicy_permissive hP _

/-- C10 witness: `"$$16384$8$1"` is accepted under the permissive
default policy with empty key and salt. -/
theorem parse_accepts_empty_key_salt_witness :
    parseWith { defaultOptions with permissive := true }
      ['$', '$', '1', '6', '3', '8', '4', '$', '8', '$', '1'] =
      .ok { hashedPassword := [], salt := [], cost := 16384, blockSize := 8,
            parallelization := 1 } := by
  have h := parse_accepts_empty_key_salt { defaultOptions with permissive := true } rfl
    16384 8 1 (by decide) (by decide) (by decide)
  have e : ('$' :: '$' ::
        (natToChars 16384 ++ ('$' :: (natToChars 8 ++ ('$' :: natToChars 1)))) : List Char) =
      ['$', '$', '1', '6', '3', '8', '4', '$', '8', '$', '1'] := by
    simp [natToChars]
  rw [e] at h
  exact h

/-! ## Claim C4 -/

/-- C4: for a well-formed record (5 fields, positive integer
parameters — characterized by a successful permissive parse), strict
decode fails with a mismatch-class error exactly when the decoded key
length, decoded salt length, or any of cost/blockSize/parallelization
differs from the policy; otherwise it returns the same record; and with
the permissive flag set, any such well-formed record is accepted under
any policy values. -/
theorem parse_strict_mismatch_iff (t : List Char) (P : ResolvedOptions) (r : ParsedHash)
    (hperm : parseWith { P with permissive := true } t = .ok r) :
    ((∃ e, parseWith { P with permissive := false } t = .error e ∧ e.isMismatch = true) ↔
        ¬(r.hashedPassword.length = P.hashlength ∧ r.salt.length = P.saltlength ∧
          r.cost = (P.cost : Int) ∧ r.blockSize = (P.blockSize : Int) ∧
          r.parallelization = (P.parallelization : Int)))
  ∧ (parseWith { P with permissive := false } t = .ok r ↔
        (r.hashedPassword.length = P.hashlength ∧ r.salt.length = P.saltlength ∧
          r.cost = (P.cost : Int) ∧ r.blockSize = (P.blockSize : Int) ∧
          r.parallelization = (P.parallelization : Int)))
  ∧ (∀ Q : ResolvedOptions, Q.permissive = true → parseWith Q t = .ok r) := by
  have hraw : parseRaw t = .ok r := parseWith_ok_parseRaw hperm
  have hstrict : parseWith { P with permissive := false } t =
      checkPolicy { P with permissive := false } r := by
    rw [parseWith, hraw]; rfl
  refine ⟨?_, ?_, fun Q hQ => by rw [parseWith, hraw]; exact checkPolicy_permissive hQ r⟩ <;>
    rw [hstrict, checkPolicy] <;>
    simp only [show ({ P with permissive := false } : ResolvedOptions).permissive = false
      from rfl, Bool.false_eq_true, if_false] <;>
    split_ifs with h1 h2 h3 h4 h5 <;>
    simp_all [ParseError.isMismatch]

/-- C4 witness: under a matching strict policy `recEx` parses, and the
same record under the default (strict, 32/16-byte) policy fails with
the hash-length mismatch. -/
theorem parse_strict_mismatch_iff_witness :
    parseWith { defaultOptions with hashlength := 3, saltlength := 3, permissive := false }
      recEx = .ok phEx :=
  ((parse_strict_mismatch_iff recEx
      { defaultOptions with hashlength := 3, saltlength := 3 } phEx rfl).2.1).mpr
    (by refine ⟨rfl, rfl, ?_, ?_, ?_⟩ <;> decide)

/-! ## Claim C9 -/

/-- C9: a recognized field supplied with the `undefined` sentinel —
directly, or through its shorthand alias `N`/`r`/`p` (which always wins
over the canonical key when present) — is reset to its documented
default value by option resolution, regardless of the process-wide
current value. -/
theorem getOptions_undefined_resets (cur : ResolvedOptions) (o : Overrides) :
    (o.hashlength = some none → (getOptions cur o).hashlength = 32)
  ∧ (o.saltlength = some none → (getOptions cur o).saltlength = 16)
  ∧ (o.pepper = some none → (getOptions cur o).pepper = "")
  ∧ (o.N = some none → (getOptions cur o).cost = 16384)
  ∧ (o.N = none → o.cost = some none → (getOptions cur o).cost = 16384)
  ∧ (o.r = some none → (getOptions cur o).blockSize = 8)
  ∧ (o.r = none → o.blockSize = some none → (getOptions cur o).blockSize = 8)
  ∧ (o.p = some none → (getOptions cur o).parallelization = 1)
  ∧ (o.p = none → o.parallelization = some none → (getOptions cur o).parallelization = 1)
  ∧ (o.maxmem = some none → (getOptions cur o).maxmem = 67108864) := by
  refine ⟨fun h => ?_, fun h => ?_, fun h => ?_, fun h => ?_, fun h h' => ?_,
    fun h => ?_, fun h h' => ?_, fun h => ?_, fun h h' => ?_, fun h => ?_⟩ <;>
    simp_all [getOptions, normalize, definedOr, aliasResolve, defaultOptions]

/-- A current option set with every field away from its default. -/
def curEx : ResolvedOptions :=
  { hashlength := 99, saltlength := 98, pepper := "pep", cost := 97, blockSize := 96,
    parallelization := 95, maxmem := 94, permissive := true }

/-- Overrides with every non-alias key and every alias key present as
`undefined`; the canonical work-factor keys carry values the winning
aliases discard. -/
def oUndefAlias : Overrides :=
  { hashlength := some none, saltlength := some none, pepper := some none
    maxmem := some none, cost := some (some 55), blockSize := some (some 54)
    parallelization := some (some 53), N := some none, r := some none, p := some none }

/-- Overrides with the canonical work-factor keys `undefined` and the
aliases absent. -/
def oUndefDirect : Overrides :=
  { cost := some none, blockSize := some none, parallelization := some none }

/-- C9 witness: resolving the two override objects above against a
fully non-default current option set yields the documented defaults. -/
theorem getOptions_undefined_resets_witness :
    (getOptions curEx oUndefAlias).hashlength = 32
  ∧ (getOptions curEx oUndefAlias).saltlength = 16
  ∧ (getOptions curEx oUndefAlias).pepper = ""
  ∧ (getOptions curEx oUndefAlias).cost = 16384
  ∧ (getOptions curEx oUndefAlias).blockSize = 8
  ∧ (getOptions curEx oUndefAlias).parallelization = 1
  ∧ (getOptions curEx oUndefAlias).maxmem = 67108864
  ∧ (getOptions curEx oUndefDirect).cost = 16384
  ∧ (getOptions curEx oUndefDirect).blockSize = 8
  ∧ (getOptions curEx oUndefDirect).parallelization = 1 := by
  obtain ⟨a1, a2, a3, a4, -, a6, -, a8, -, a10⟩ := getOptions_undefined_resets curEx oUndefAlias
  obtain ⟨-, -, -, -, b5, -, b7, -, b9, -⟩ := getOptions_undefined_resets curEx oUndefDirect
  exact ⟨a1 rfl, a2 rfl, a3 rfl, a4 rfl, a6 rfl, a8 rfl, a10 rfl,
    b5 rfl rfl, b7 rfl rfl, b9 rfl rfl⟩

/-! ## Claim C3 -/

/-- C3: when a record decodes successfully, the argument tuple `verify`
feeds to the key-derivation call is determined by the record's embedded
fields (salt, key length, cost, blockSize, parallelization) together
with only the resolved `pepper` and `maxmem`: two arbitrary
configurations (process-wide state plus caller overrides) agreeing on
those two fields produce the same parsed record and the same derivation
call, whatever their `hashlength`, `saltlength`, `cost`, `blockSize`
and `parallelization` say. -/
theorem verify_derivation_args_from_record (pw : String) (rec : List Char)
    (cur₁ cur₂ : ResolvedOptions) (o₁ o₂ : Overrides) (ph₁ ph₂ : ParsedHash)
    (h₁ : parse cur₁ o₁ rec = .ok ph₁) (h₂ : parse cur₂ o₂ rec = .ok ph₂)
    (hpepper : (getOptions cur₁ o₁).pepper = (getOptions cur₂ o₂).pepper)
    (hmaxmem : (getOptions cur₁ o₁).maxmem = (getOptions cur₂ o₂).maxmem) :
    ph₁ = ph₂ ∧
      verifyScryptArgs pw ph₁ (getOptions cur₁ o₁) =
        verifyScryptArgs pw ph₂ (getOptions cur₂ o₂) := by
  rw [parse] at h₁ h₂
  have e₁ := parseWith_ok_parseRaw h₁
  have e₂ := parseWith_ok_parseRaw h₂
  rw [e₁] at e₂
  injection e₂ with e
  subst e
  exact ⟨rfl, by simp [verifyScryptArgs, hpepper, hmaxmem]⟩

/-- Policies for the C3 witness: both permissive with the default
pepper and maxmem, but entirely different length and work-factor
fields. -/
def polA : ResolvedOptions := { defaultOptions with permissive := true }

def polB : ResolvedOptions :=
  { defaultOptions with
    permissive := true
    hashlength := 7
    saltlength := 2
    cost := 999
    blockSize := 77
    parallelization := 55 }

/-- C3 witness: under `polA` and `polB` the record `recEx` parses to
the same object and yields the same derivation call. -/
theorem verify_derivation_args_from_record_witness :
    phEx = phEx ∧ verifyScryptArgs "pw" phEx polA = verifyScryptArgs "pw" phEx polB :=
  verify_derivation_args_from_record "pw" recEx polA polB {} {} phEx phEx
    rfl rfl rfl rfl

/-! ## Claim C2 -/

/-- C2 counterexample: the claim states `verify` never propagates an
error and in particular collapses a failure of the derivation primitive
to `false`.  With a derivation primitive that fails, `verify` on a
well-formed record returns the rejected promise (`.error`), not a
boolean: the `reject(err)` branch propagates the scrypt failure to the
caller. -/
theorem verify_rejects_on_scrypt_error :
    verify (fun _ => .error ()) "pw" recEx { defaultOptions with permissive := true } {} =
      .error () := by
  rfl

/-- C2 (amended): every *decode* failure is collapsed to the boolean
`false`, but a failure of the key-derivation primitive itself is
propagated to the caller as a rejected promise rather than collapsed:
on a record that decodes, `verify` forwards the primitive's error
verbatim, and forwards its success as the comparison result. -/
theorem verify_error_collapse (S : ScryptFn) (pw : String) (rec : List Char)
    (cur : ResolvedOptions) (o : Overrides) :
    (∀ e, parseWith (getOptions cur o) rec = .error e → verify S pw rec cur o = .ok false)
  ∧ (∀ ph e, parseWith (getOptions cur o) rec = .ok ph →
      S (verifyScryptArgs pw ph (getOptions cur o)) = .error e →
      verify S pw rec cur o = .error e)
  ∧ (∀ ph dk, parseWith (getOptions cur o) rec = .ok ph →
      S (verifyScryptArgs pw ph (getOptions cur o)) = .ok dk →
      verify S pw rec cur o = .ok (dk == ph.hashedPassword)) := by
  refine ⟨fun e he => ?_, fun ph e hp hs => ?_, fun ph dk hp hs => ?_⟩
  · simp only [verify]; rw [he]
  · simp only [verify]; rw [hp]; simp only []; rw [hs]
  · simp only [verify]; rw [hp]; simp only []; rw [hs]

/-- C2 amended-claim witness: the three behaviours at concrete inputs —
a malformed record gives `false`, a failing primitive on a good record
gives a rejected promise, a succeeding primitive gives the comparison
result (`true` here). -/
theorem verify_error_collapse_witness :
    verify (fun c => .ok (List.replicate c.keylen 0)) "pw" ['b', 'a', 'd']
        defaultOptions {} = .ok false
  ∧ verify (fun _ => .error ()) "pw"
        ['$', '$', '1', '6', '3', '8', '4', '$', '8', '$', '2'] polA {} = .error ()
  ∧ verify (fun c => .ok (List.replicate c.keylen 0)) "pw" recEx polA {} = .ok true := by
  refine ⟨?_, ?_, ?_⟩
  · exact (verify_error_collapse _ "pw" ['b', 'a', 'd'] defaultOptions {}).1
      .invalidFormat rfl
  · exact (verify_error_collapse _ "pw"
      ['$', '$', '1', '6', '3', '8', '4', '$', '8', '$', '2'] polA {}).2.1
      { hashedPassword := [], salt := [], cost := 16384, blockSize := 8,
        parallelization := 2 } () rfl rfl
  · have h := (verify_error_collapse (fun c => .ok (List.replicate c.keylen 0))
      "pw" recEx polA {}).2.2 phEx [0, 0, 0] rfl rfl
    simpa [phEx] using h

/-! ## Claim C1 -/

/-- C1: round trip.  For any password and any valid parameter set
(positive work factors) held as the process-wide configuration, if the
derivation primitive succeeds on the call `hash` makes and returns a
key of the requested length (its contract), then verifying the password
against the record `hash` produced — under the same configuration —
returns `true`.  The salt stands for `crypto.randomBytes(saltlength)`:
a byte string of length `saltlength`.  Determinism of the primitive is
inherent: both calls evaluate the same function at the same argument
tuple. -/
theorem verify_hash_roundtrip (S : ScryptFn) (password : String)
    (cur : ResolvedOptions) (salt dk : List Nat)
    (hdkB : ∀ b ∈ dk, b < 256) (hsaltB : ∀ b ∈ salt, b < 256)
    (hsaltLen : salt.length = cur.saltlength)
    (hS : S (hashScryptArgs password cur salt) = .ok dk)
    (hdkLen : dk.length = cur.hashlength)
    (hc : 0 < cur.cost) (hb : 0 < cur.blockSize) (hp : 0 < cur.parallelization) :
    ∃ rec, hash S password cur {} salt = .ok rec ∧
      verify S password rec cur {} = .ok true := by
  refine ⟨base64EncodeChars dk ++ ('$' :: (base64EncodeChars salt ++
      ('$' :: (natToChars cur.cost ++ ('$' :: (natToChars cur.blockSize ++
        ('$' :: natToChars cur.parallelization))))))), ?_, ?_⟩
  · simp only [hash, getOptions_empty]
    rw [hS]
  · have hsplit : splitDollar (base64EncodeChars dk ++ ('$' :: (base64EncodeChars salt ++
        ('$' :: (natToChars cur.cost ++ ('$' :: (natToChars cur.blockSize ++
          ('$' :: natToChars cur.parallelization)))))))) =
        [base64EncodeChars dk, base64EncodeChars salt, natToChars cur.cost,
          natToChars cur.blockSize, natToChars cur.parallelization] := by
      rw [splitDollar_append _ _ (base64_no_dollar dk hdkB),
        splitDollar_append _ _ (base64_no_dollar salt hsaltB),
        splitDollar_append _ _ (natToChars_no_dollar cur.cost),
        splitDollar_append _ _ (natToChars_no_dollar cur.blockSize),
        splitDollar_no_dollar (natToChars_no_dollar cur.parallelization)]
    have hraw : parseRaw (base64EncodeChars dk ++ ('$' :: (base64EncodeChars salt ++
        ('$' :: (natToChars cur.cost ++ ('$' :: (natToChars cur.blockSize ++
          ('$' :: natToChars cur.parallelization)))))))) =
        .ok { hashedPassword := dk, salt := salt, cost := (cur.cost : Int),
              blockSize := (cur.blockSize : Int),
              parallelization := (cur.parallelization : Int) } := by
      rw [parseRaw, hsplit]
      simp [parseIntJS_natToChars, checkPosInt, Int.natCast_pos, hc, hb, hp,
        base64_roundtrip dk hdkB, base64_roundtrip salt hsaltB]
    have hpol : checkPolicy cur
        { hashedPassword := dk, salt := salt, cost := (cur.cost : Int),
          blockSize := (cur.blockSize : Int),
          parallelization := (cur.parallelization : Int) } =
        .ok { hashedPassword := dk, salt := salt, cost := (cur.cost : Int),
              blockSize := (cur.blockSize : Int),
              parallelization := (cur.parallelization : Int) } := by
      simp [checkPolicy, hdkLen, hsaltLen]
    simp only [verify, getOptions_empty, parseWith, hraw, Except.bind, hpol]
    have hargs : verifyScryptArgs password
        { hashedPassword := dk, salt := salt, cost := (cur.cost : Int),
          blockSize := (cur.blockSize : Int),
          parallelization := (cur.parallelization : Int) } cur =
        hashScryptArgs password cur salt := by
      simp [verifyScryptArgs, hashScryptArgs, hdkLen]
    rw [hargs, hS]
    simp

/-- C1 witness: the round trip at the default configuration, a 16-byte
zero salt, and a primitive returning a zero key of the requested
length. -/
theorem verify_hash_roundtrip_witness :
    ∃ rec, hash (fun c => .ok (List.replicate c.keylen 0)) "pw" defaultOptions {}
        (List.replicate 16 0) = .ok rec ∧
      verify (fun c => .ok (List.replicate c.keylen 0)) "pw" rec defaultOptions {} =
        .ok true :=
  verify_hash_roundtrip (fun c => .ok (List.replicate c.keylen 0)) "pw" defaultOptions
    (List.replicate 16 0) (List.replicate 32 0)
    (by intro b hb; rw [List.eq_of_mem_replicate hb]; omega)
    (by intro b hb; rw [List.eq_of_mem_replicate hb]; omega)
    (by simp [defaultOptions]) rfl (by simp [defaultOptions])
    (by decide) (by decide) (by decide)

/-! ## Claim C5 -/

/-- C5: `needsRehash` decodes the record under the resolved policy with
`strict` forced to `true` — whatever `strict` the caller's options or
the process-wide configuration carry, the effective policy is exactly
the resolved one with `strict := true` — and returns `true` exactly
when that strict decode fails (for any reason the abstract deserializer
or the strict parameter checks can produce) and `false` exactly when it
succeeds. -/
theorem needsRehash_strict_probe (D : Phc.Deserialize) (cur : Phc.ResolvedS)
    (o : Phc.OverridesS) (h : String) :
    (Phc.getOptionsS cur { o with strict := some (some true) } =
        { Phc.getOptionsS cur o with strict := true })
  ∧ (Phc.needsRehash D cur o h = true ↔
      ∃ e, Phc.parseS D cur { o with strict := some (some true) } h = .error e)
  ∧ (Phc.needsRehash D cur o h = false ↔
      ∃ ph, Phc.parseS D cur { o with strict := some (some true) } h = .ok ph) := by
  refine ⟨rfl, ?_, ?_⟩ <;>
    cases hp : Phc.parseS D cur { o with strict := some (some true) } h <;>
      simp [Phc.needsRehash, hp]

/-- A deserializer for the C5 witness: accepts exactly one record text,
with the default parameters but a 2-byte hash. -/
def dEx : Phc.Deserialize := fun s =>
  if s = "$scrypt$n=16384,r=8,p=1$AAAA$AAA" then
    some { hash := [0, 0], salt := [0, 0, 0], n := some 16384, r := some 8, p := some 1 }
  else none

/-- C5 witness: under the default configuration (strict off) with
caller options that also say `strict: false`, `needsRehash` still
applies the strict checks: the 2-byte hash mismatches `hashlength = 32`
and the record is reported as needing a rehash, while an unknown text
is likewise reported `true`; the forced-strict policy equality is
instantiated as well. -/
theorem needsRehash_strict_probe_witness :
    (Phc.getOptionsS Phc.defaultOptionsS
        { Phc.OverridesS.mk none none none none none none none
            (some (some false)) none none none with strict := some (some true) } =
      { Phc.getOptionsS Phc.defaultOptionsS
          (Phc.OverridesS.mk none none none none none none none
            (some (some false)) none none none) with strict := true })
  ∧ Phc.needsRehash dEx Phc.defaultOptionsS
      { strict := some (some false) } "$scrypt$n=16384,r=8,p=1$AAAA$AAA" = true
  ∧ Phc.needsRehash dEx Phc.defaultOptionsS {} "junk" = true := by
  refine ⟨(needsRehash_strict_probe dEx Phc.defaultOptionsS
      { strict := some (some false) } "$scrypt$n=16384,r=8,p=1$AAAA$AAA").1, ?_, ?_⟩
  · exact (needsRehash_strict_probe dEx Phc.defaultOptionsS
      { strict := some (some false) } "$scrypt$n=16384,r=8,p=1$AAAA$AAA").2.1.mpr
      ⟨.hashLengthMismatch, rfl⟩
  · exact (needsRehash_strict_probe dEx Phc.defaultOptionsS {} "junk").2.1.mpr
      ⟨.deserializeFailed, rfl⟩

end ScryptPwd
